import Mathlib

/-!
Verification of the PyramidWFS tutorial notebook (closed-loop adaptive optics
with a pyramid wavefront sensor, a deformable mirror, and a leaky-integrator
controller).  The notebook is a sequential script over an external optics
library; the script logic (parameter values, calibration loops, the control
loop) is embedded here faithfully, while the library calls it makes
(wavefront propagation, detector, Tikhonov pseudo-inverse, Poisson sampling)
are abstract parameters bundled in an environment structure.  Scalars are
rationals, which model the real-number semantics of the numerics.
-/

namespace PyramidWFS

/-- Sensing wavelength in meters, 842 nm, from the parameter cell
(wavelength_wfs = 842.0E-9). -/
def wavelength_wfs : ℚ := 842e-9

/-- Leakage of the leaky integrator, from the AO-parameter cell
(leakage = 0.01). -/
def leakage : ℚ := 0.01

/-- Gain of the leaky integrator, from the AO-parameter cell (gain = 0.5). -/
def gain : ℚ := 0.5

/-- Exposure-time parameter from the AO-parameter cell (delta_t = 1E-3).
The loop body passes the literal 1 to the detector instead. -/
def delta_t : ℚ := 1e-3

/-- Probe amplitude for the interaction-matrix calibration
(probe_amp = 0.01 * wavelength_wfs). -/
def probe_amp : ℚ := 0.01 * wavelength_wfs

/-- Regularization parameter of the Tikhonov pseudo-inverse (rcond = 1E-3). -/
def rcond : ℚ := 1e-3

/-- A detector image: one rational intensity per pixel. -/
abbrev Image (npix : ℕ) : Type := Fin npix → ℚ

/-- An actuator-command vector of the deformable mirror. -/
abbrev Actuators (nact : ℕ) : Type := Fin nact → ℚ

/-- Total sum of an image, as in image_ref.sum() and np.sum(wfs_image). -/
def imageSum {npix : ℕ} (img : Image npix) : ℚ := ∑ j, img j

/-- Normalization of an image by its total sum, as in
image_ref /= image_ref.sum() and wfs_image /= np.sum(wfs_image). -/
def normalize {npix : ℕ} (img : Image npix) : Image npix :=
  fun j => img j / imageSum img

/-- Matrix-vector product, as in reconstruction_matrix.dot(diff_image). -/
def mdot {npix nact : ℕ} (M : Fin nact → Fin npix → ℚ) (v : Image npix) :
    Actuators nact :=
  fun i => ∑ j, M i j * v j

/-- Modelled from the spec: the NoiselessDetector of the optics library (its
code is not under src); the spec has the script "integrate photon counts on
the detector for unit exposure time", so the detector accumulates incident
power scaled by the exposure time and hands the accumulated image over on
read-out. -/
structure NoiselessDetector (npix : ℕ) where
  accumulated : Image npix

/-- A detector holding no accumulated charge (the state of a freshly built
detector, and of a detector just after read-out). -/
def emptyCam {npix : ℕ} : NoiselessDetector npix := ⟨fun _ => 0⟩

/-- Modelled from the spec: camera.integrate(wf, dt) adds the incident power
pattern times the exposure time dt to the accumulated image. -/
def NoiselessDetector.integrate {npix : ℕ} (cam : NoiselessDetector npix)
    (power : Image npix) (dt : ℚ) : NoiselessDetector npix :=
  ⟨fun j => cam.accumulated j + dt * power j⟩

/-- Modelled from the spec: camera.read_out() returns the accumulated image
and resets the detector to its empty state. -/
def NoiselessDetector.read_out {npix : ℕ} (cam : NoiselessDetector npix) :
    Image npix × NoiselessDetector npix :=
  (cam.accumulated, emptyCam)

/-- Modelled from the spec: the opaque optics-library calls the notebook
makes.  dmForward is deformable_mirror.forward at a given actuator-command
vector; pwfsForward is pwfs.forward; detPower gives the power pattern a
wavefront deposits on the detector plane; inverse_tikhonov is the library
pseudo-inverse taking the interaction matrix and the rcond parameter.
Wavefronts stay an abstract type W. -/
structure AOEnv (W : Type) (npix nact : ℕ) where
  dmForward : Actuators nact → W → W
  pwfsForward : W → W
  detPower : W → Image npix
  inverse_tikhonov : (Fin npix → Fin nact → ℚ) → ℚ → (Fin nact → Fin npix → ℚ)

/-- The script variables live during the closed-loop cells: the DM actuator
commands, the camera, the reconstruction matrix and normalized reference
image computed during calibration, and the per-iteration image variables. -/
structure ScriptState (npix nact : ℕ) where
  actuators : Actuators nact
  camera : NoiselessDetector npix
  reconstruction_matrix : Fin nact → Fin npix → ℚ
  image_ref : Image npix
  wfs_image : Image npix
  diff_image : Image npix

/-- One iteration of the closed-loop cell:
wf_dm = deformable_mirror.forward(wf_wfs); wf_pyr = pwfs.forward(wf_dm);
camera.integrate(wf_pyr, 1); wfs_image = large_poisson(camera.read_out());
wfs_image /= np.sum(wfs_image); diff_image = wfs_image - image_ref;
deformable_mirror.actuators = (1-leakage) * deformable_mirror.actuators
  - gain * reconstruction_matrix.dot(diff_image).
The Poisson draw of this iteration is the function noise. -/
def loopStep {W : Type} {npix nact : ℕ} (env : AOEnv W npix nact) (wf : W)
    (noise : Image npix → Image npix) (s : ScriptState npix nact) :
    ScriptState npix nact :=
  let wf_dm := env.dmForward s.actuators wf
  let wf_pyr := env.pwfsForward wf_dm
  let cam1 := s.camera.integrate (env.detPower wf_pyr) 1
  let ro := cam1.read_out
  let wfs_image := normalize (noise ro.1)
  let diff_image := fun j => wfs_image j - s.image_ref j
  { actuators := fun i =>
      (1 - leakage) * s.actuators i -
        gain * mdot s.reconstruction_matrix diff_image i
    camera := ro.2
    reconstruction_matrix := s.reconstruction_matrix
    image_ref := s.image_ref
    wfs_image := wfs_image
    diff_image := diff_image }

/-- Runs the closed-loop cell body n times starting from iteration index i;
the Poisson draws are the stream noise, indexed by iteration. -/
def runLoop {W : Type} {npix nact : ℕ} (env : AOEnv W npix nact) (wf : W)
    (noise : ℕ → Image npix → Image npix) :
    ℕ → ℕ → ScriptState npix nact → ScriptState npix nact
  | _, 0, s => s
  | i, n + 1, s => runLoop env wf noise (i + 1) n (loopStep env wf (noise i) s)

/-- The list of states after each of the n iterations of the loop, starting
from iteration index i. -/
def loopTrace {W : Type} {npix nact : ℕ} (env : AOEnv W npix nact) (wf : W)
    (noise : ℕ → Image npix → Image npix) :
    ℕ → ℕ → ScriptState npix nact → List (ScriptState npix nact)
  | _, 0, _ => []
  | i, n + 1, s =>
    let s1 := loopStep env wf (noise i) s
    s1 :: loopTrace env wf noise (i + 1) n s1

/-- The reference-image cell: a fresh camera integrates the pyramid response
of the unaberrated wavefront for unit exposure time
(camera.integrate(pwfs.forward(wf), 1)), and the read-out is normalized by
its total sum (image_ref /= image_ref.sum()). -/
def image_ref_calc {W : Type} {npix nact : ℕ} (env : AOEnv W npix nact)
    (wf : W) : Image npix :=
  let cam1 := emptyCam.integrate (env.detPower (env.pwfsForward wf)) 1
  normalize cam1.read_out.1

/-- The probe command of the calibration loop:
amp = np.zeros((num_modes,)); amp[ind] = c. -/
def eVec {nact : ℕ} (ind : Fin nact) (c : ℚ) : Actuators nact :=
  fun i => if i = ind then c else 0

/-- One probe exposure of the calibration loop body: set the DM to the probe
command, propagate through the DM and then the pyramid optics, integrate for
unit exposure time, read out and normalize by the total sum.  Returns the
normalized image together with the detector state after read-out. -/
def probeImage {W : Type} {npix nact : ℕ} (env : AOEnv W npix nact) (wf : W)
    (cam : NoiselessDetector npix) (a : Actuators nact) :
    Image npix × NoiselessDetector npix :=
  let dm_wf := env.dmForward a wf
  let wfs_wf := env.pwfsForward dm_wf
  let cam1 := cam.integrate (env.detPower wfs_wf) 1
  let ro := cam1.read_out
  (normalize ro.1, ro.2)

/-- The inner calibration loop for actuator ind: slope = 0, then for
s in [1, -1]: slope += s * (image - image_ref) / (2 * probe_amp), with the
probe command s * probe_amp on actuator ind. -/
def slopeFor {W : Type} {npix nact : ℕ} (env : AOEnv W npix nact) (wf : W)
    (ref : Image npix) (cam : NoiselessDetector npix) (ind : Fin nact) :
    Image npix × NoiselessDetector npix :=
  let p := probeImage env wf cam (eVec ind probe_amp)
  let m := probeImage env wf p.2 (eVec ind (-probe_amp))
  (fun j => 0 + 1 * (p.1 j - ref j) / (2 * probe_amp)
      + (-1) * (m.1 j - ref j) / (2 * probe_amp), m.2)

/-- The outer calibration loop over the probed actuator indices, threading
the detector state; each slope image is appended to the list of slopes. -/
def calibSlopes {W : Type} {npix nact : ℕ} (env : AOEnv W npix nact) (wf : W)
    (ref : Image npix) :
    NoiselessDetector npix → List (Fin nact) → List (Image npix)
  | _, [] => []
  | cam, ind :: rest =>
    let sl := slopeFor env wf ref cam ind
    sl.1 :: calibSlopes env wf ref sl.2 rest

/-- The list of slope images for actuators 0 .. num_modes-1 built by the
interaction-matrix cell (the camera starts empty because the reference-image
cell has just read it out). -/
def interactionList {W : Type} {npix nact : ℕ} (env : AOEnv W npix nact)
    (wf : W) (ref : Image npix) : List (Image npix) :=
  calibSlopes env wf ref emptyCam (List.finRange nact)

/-- Column ind of the interaction matrix: the slope image measured for
actuator ind. -/
def interactionMatrix {W : Type} {npix nact : ℕ} (env : AOEnv W npix nact)
    (wf : W) (ref : Image npix) : Fin nact → Image npix :=
  fun i => (interactionList env wf ref).getD i (fun _ => 0)

/-- slopes.transformation_matrix: the pixel-j, actuator-i entry is the slope
of actuator i at pixel j. -/
def transformationMatrix {W : Type} {npix nact : ℕ} (env : AOEnv W npix nact)
    (wf : W) (ref : Image npix) : Fin npix → Fin nact → ℚ :=
  fun j i => interactionMatrix env wf ref i j

/-- The reconstruction-matrix cell:
reconstruction_matrix = inverse_tikhonov(slopes.transformation_matrix,
rcond=rcond). -/
def reconstructionMatrixCalc {W : Type} {npix nact : ℕ}
    (env : AOEnv W npix nact) (wf : W) (ref : Image npix) :
    Fin nact → Fin npix → ℚ :=
  env.inverse_tikhonov (transformationMatrix env wf ref) rcond

/-- The script state at the start of the first closed-loop cell: the DM
holds the random shape a0, the camera has just been read out, and the
reconstruction matrix and normalized reference image come from the
calibration cells. -/
def initialState {W : Type} {npix nact : ℕ} (env : AOEnv W npix nact)
    (wfCalib : W) (a0 : Actuators nact) : ScriptState npix nact :=
  let ref := image_ref_calc env wfCalib
  { actuators := a0
    camera := emptyCam
    reconstruction_matrix := reconstructionMatrixCalc env wfCalib ref
    image_ref := ref
    wfs_image := fun _ => 0
    diff_image := fun _ => 0 }

/-- The raw detector read-out inside the closed-loop iteration, before the
Poisson draw and the normalization. -/
def rawReadOut {W : Type} {npix nact : ℕ} (env : AOEnv W npix nact) (wf : W)
    (s : ScriptState npix nact) : Image npix :=
  ((s.camera.integrate
      (env.detPower (env.pwfsForward (env.dmForward s.actuators wf))) 1).read_out).1

/-- The actuator update law in the words of the spec: the new command vector
is (1 - leakage) times the previous command vector minus gain times the
product of the reconstruction matrix with the difference image, where the
difference image is the normalized sensor image minus the normalized
reference image, with leakage 0.01 = 1/100 and gain 0.5 = 1/2. -/
def specActuatorUpdate {npix nact : ℕ} (a : Actuators nact)
    (M : Fin nact → Fin npix → ℚ) (sensor ref : Image npix) : Actuators nact :=
  fun i => (1 - 1/100) * a i - (1/2) * mdot M (fun j => sensor j - ref j) i

/-- C1: in every closed-loop iteration the actuator command vector is updated
to (1-leakage) times the previous command vector minus gain times the product
of the reconstruction matrix with the difference image (the normalized sensor
image minus the normalized reference image), with leakage = 0.01 and
gain = 0.5. -/
theorem C1_actuator_update {W : Type} {npix nact : ℕ} (env : AOEnv W npix nact)
    (wf : W) (noise : Image npix → Image npix) (s : ScriptState npix nact) :
    (loopStep env wf noise s).actuators
      = specActuatorUpdate s.actuators s.reconstruction_matrix
          (loopStep env wf noise s).wfs_image s.image_ref
    ∧ leakage = 1/100 ∧ gain = 1/2 := by
  refine ⟨?_, by norm_num [leakage], by norm_num [gain]⟩
  funext i
  show (1 - leakage) * s.actuators i - gain * _ = _
  rw [show leakage = 1/100 by norm_num [leakage],
    show gain = 1/2 by norm_num [gain]]
  rfl

/-- C2: each closed-loop iteration performs these steps in this order: the
wavefront is propagated through the DM and then through the pyramid optics;
the detector integrates the resulting power for unit exposure time starting
from its empty (just read out) state; the read-out is normalized by its total
sum; the difference against the precomputed normalized reference image is
taken; and the actuator commands are then updated from that difference. -/
theorem C2_iteration_order {W : Type} {npix nact : ℕ} (env : AOEnv W npix nact)
    (wf : W) (noise : Image npix → Image npix) (s : ScriptState npix nact)
    (hc : s.camera = emptyCam) :
    rawReadOut env wf s
      = ((emptyCam.integrate
          (env.detPower (env.pwfsForward (env.dmForward s.actuators wf)))
          1).read_out).1
    ∧ (loopStep env wf noise s).wfs_image = normalize (noise (rawReadOut env wf s))
    ∧ (loopStep env wf noise s).diff_image
      = (fun j => (loopStep env wf noise s).wfs_image j - s.image_ref j)
    ∧ (loopStep env wf noise s).actuators
      = (fun i => (1 - leakage) * s.actuators i
          - gain * mdot s.reconstruction_matrix (loopStep env wf noise s).diff_image i) := by
  obtain ⟨a, cam, M, ref, wi, di⟩ := s
  cases hc
  exact ⟨rfl, rfl, rfl, rfl⟩

/-- A trivial concrete environment on one pixel and one actuator, used to
instantiate theorems with hypotheses at concrete inputs. -/
def envU : AOEnv Unit 1 1 where
  dmForward := fun _ w => w
  pwfsForward := fun w => w
  detPower := fun _ => fun _ => 1
  inverse_tikhonov := fun _ _ => fun _ _ => 1

/-- A concrete script state on one pixel and one actuator with an empty
detector. -/
def s0U : ScriptState 1 1 where
  actuators := fun _ => 0
  camera := emptyCam
  reconstruction_matrix := fun _ _ => 1
  image_ref := fun _ => 1
  wfs_image := fun _ => 0
  diff_image := fun _ => 0

/-- Witness for C2 at the concrete one-pixel environment. -/
theorem C2_iteration_order_witness :
    rawReadOut envU () s0U
      = ((emptyCam.integrate
          (envU.detPower (envU.pwfsForward (envU.dmForward s0U.actuators ())))
          1).read_out).1
    ∧ (loopStep envU () (fun img => img) s0U).wfs_image
      = normalize ((fun img => img) (rawReadOut envU () s0U))
    ∧ (loopStep envU () (fun img => img) s0U).diff_image
      = (fun j => (loopStep envU () (fun img => img) s0U).wfs_image j
          - s0U.image_ref j)
    ∧ (loopStep envU () (fun img => img) s0U).actuators
      = (fun i => (1 - leakage) * s0U.actuators i
          - gain * mdot s0U.reconstruction_matrix
              (loopStep envU () (fun img => img) s0U).diff_image i) :=
  C2_iteration_order envU () (fun img => img) s0U rfl

/-- Integrating on an empty detector for unit exposure time reads the
incident power pattern back out unchanged. -/
theorem integrate_emptyCam_unit {npix : ℕ} (power : Image npix) :
    ((emptyCam.integrate power 1).read_out).1 = power := by
  funext j
  show 0 + 1 * power j = power j
  ring

/-- The pure per-probe response: the normalized detector image produced by
unit-exposure integration of the pyramid response of the wavefront
propagated through the DM at command vector a. -/
def responseImage {W : Type} {npix nact : ℕ} (env : AOEnv W npix nact)
    (wf : W) (a : Actuators nact) : Image npix :=
  normalize (env.detPower (env.pwfsForward (env.dmForward a wf)))

/-- A probe exposure starting from an empty detector yields the pure
response image and leaves the detector empty. -/
theorem probeImage_emptyCam {W : Type} {npix nact : ℕ}
    (env : AOEnv W npix nact) (wf : W) (a : Actuators nact) :
    probeImage env wf emptyCam a = (responseImage env wf a, emptyCam) := by
  have h := integrate_emptyCam_unit
    (env.detPower (env.pwfsForward (env.dmForward a wf)))
  simp only [probeImage, responseImage]
  rw [h]
  rfl

/-- The slope measured for actuator ind starting from an empty detector:
the reference image cancels from the signed sum and the finite-difference
formula remains. -/
theorem slopeFor_emptyCam {W : Type} {npix nact : ℕ} (env : AOEnv W npix nact)
    (wf : W) (ref : Image npix) (ind : Fin nact) :
    slopeFor env wf ref emptyCam ind
      = (fun j => (responseImage env wf (eVec ind probe_amp) j
            - responseImage env wf (eVec ind (-probe_amp)) j) / (2 * probe_amp),
         emptyCam) := by
  simp only [slopeFor, probeImage_emptyCam]
  refine Prod.ext ?_ rfl
  funext j
  ring

/-- The calibration loop starting from an empty detector keeps the detector
empty across probes, so the slope list is the pointwise probe response of
each index in turn. -/
theorem calibSlopes_emptyCam {W : Type} {npix nact : ℕ}
    (env : AOEnv W npix nact) (wf : W) (ref : Image npix)
    (l : List (Fin nact)) :
    calibSlopes env wf ref emptyCam l
      = l.map fun ind => (slopeFor env wf ref emptyCam ind).1 := by
  induction l with
  | nil => rfl
  | cons ind rest ih =>
    show (slopeFor env wf ref emptyCam ind).1 ::
        calibSlopes env wf ref (slopeFor env wf ref emptyCam ind).2 rest = _
    have h2 : (slopeFor env wf ref emptyCam ind).2 = emptyCam := rfl
    rw [h2, ih, List.map_cons]

/-- Column i of the interaction matrix is the slope measured for actuator i
from an empty detector. -/
theorem interactionMatrix_eq {W : Type} {npix nact : ℕ}
    (env : AOEnv W npix nact) (wf : W) (ref : Image npix) (i : Fin nact) :
    interactionMatrix env wf ref i = (slopeFor env wf ref emptyCam i).1 := by
  have hl : interactionList env wf ref
      = (List.finRange nact).map fun ind => (slopeFor env wf ref emptyCam ind).1 :=
    calibSlopes_emptyCam env wf ref _
  have hi : (i : ℕ) <
      ((List.finRange nact).map fun ind => (slopeFor env wf ref emptyCam ind).1).length := by
    simp [i.isLt]
  simp only [interactionMatrix]
  rw [hl, List.getD_eq_getElem _ _ hi]
  simp

/-- C3: the interaction matrix is built by finite-difference probing: for
each actuator index, + probe_amp and - probe_amp are applied to that
actuator alone (all other commands zero, probe_amp = 0.01 times the sensing
wavelength), and that actuator's column equals the averaged difference of
the two normalized probe images divided by 2 * probe_amp. -/
theorem C3_finite_difference_columns {W : Type} {npix nact : ℕ}
    (env : AOEnv W npix nact) (wf : W) (ref : Image npix) (ind : Fin nact) :
    interactionMatrix env wf ref ind
      = (fun j => (responseImage env wf (eVec ind probe_amp) j
            - responseImage env wf (eVec ind (-probe_amp)) j) / (2 * probe_amp))
    ∧ probe_amp = wavelength_wfs / 100
    ∧ eVec ind probe_amp ind = probe_amp
    ∧ eVec ind (-probe_amp) ind = -probe_amp
    ∧ ∀ i : Fin nact, i ≠ ind →
        eVec ind probe_amp i = 0 ∧ eVec ind (-probe_amp) i = 0 := by
  refine ⟨?_, by norm_num [probe_amp, wavelength_wfs], by simp [eVec],
    by simp [eVec], ?_⟩
  · rw [interactionMatrix_eq, slopeFor_emptyCam]
  · intro i hi
    simp [eVec, hi]

/-- Witness for C3 at the concrete one-pixel environment. -/
theorem C3_finite_difference_columns_witness :
    interactionMatrix envU () (fun _ => 1) (0 : Fin 1)
      = (fun j => (responseImage envU () (eVec (0 : Fin 1) probe_amp) j
            - responseImage envU () (eVec (0 : Fin 1) (-probe_amp)) j)
          / (2 * probe_amp))
    ∧ probe_amp = wavelength_wfs / 100
    ∧ eVec (0 : Fin 1) probe_amp 0 = probe_amp
    ∧ eVec (0 : Fin 1) (-probe_amp) 0 = -probe_amp
    ∧ ∀ i : Fin 1, i ≠ (0 : Fin 1) →
        eVec (0 : Fin 1) probe_amp i = 0 ∧ eVec (0 : Fin 1) (-probe_amp) i = 0 :=
  C3_finite_difference_columns envU () (fun _ => 1) (0 : Fin 1)

/-- C8: the accumulated probe slope for every actuator equals
(I_plus - I_minus) / (2 * probe_amp), with I_plus and I_minus the normalized
images for the positive and negative probes: the reference image cancels out
of the signed sum, so the interaction matrix is independent of image_ref. -/
theorem C8_reference_cancels {W : Type} {npix nact : ℕ}
    (env : AOEnv W npix nact) (wf : W) (ref1 ref2 : Image npix)
    (cam : NoiselessDetector npix) (ind : Fin nact) :
    (slopeFor env wf ref1 cam ind).1
      = (fun j => ((probeImage env wf cam (eVec ind probe_amp)).1 j
          - (probeImage env wf (probeImage env wf cam (eVec ind probe_amp)).2
              (eVec ind (-probe_amp))).1 j) / (2 * probe_amp))
    ∧ interactionMatrix env wf ref1 = interactionMatrix env wf ref2 := by
  constructor
  · simp only [slopeFor]
    funext j
    ring
  · funext i
    rw [interactionMatrix_eq, interactionMatrix_eq, slopeFor_emptyCam,
      slopeFor_emptyCam]

/-- Running the loop never changes the reconstruction matrix or the
reference image held in the state. -/
theorem runLoop_frame {W : Type} {npix nact : ℕ} (env : AOEnv W npix nact)
    (wf : W) (noise : ℕ → Image npix → Image npix) :
    ∀ (n i : ℕ) (s : ScriptState npix nact),
      (runLoop env wf noise i n s).reconstruction_matrix = s.reconstruction_matrix
      ∧ (runLoop env wf noise i n s).image_ref = s.image_ref
  | 0, _, _ => ⟨rfl, rfl⟩
  | n + 1, i, s =>
    runLoop_frame env wf noise n (i + 1) (loopStep env wf (noise i) s)

/-- C4: the reconstruction matrix is computed once before the control loop
starts, as the Tikhonov-regularized pseudo-inverse of the interaction matrix
with rcond = 1e-3, and no closed-loop iteration modifies it or the
normalized reference image: any run of the loop preserves both fields of
the state. -/
theorem C4_recon_precomputed_frame {W : Type} {npix nact : ℕ}
    (env : AOEnv W npix nact) (wfCalib wfLoop : W) (a0 : Actuators nact)
    (noise : ℕ → Image npix → Image npix) (i n : ℕ)
    (s : ScriptState npix nact) :
    (initialState env wfCalib a0).reconstruction_matrix
      = env.inverse_tikhonov
          (transformationMatrix env wfCalib (image_ref_calc env wfCalib)) rcond
    ∧ rcond = 1/1000
    ∧ (initialState env wfCalib a0).image_ref = image_ref_calc env wfCalib
    ∧ (runLoop env wfLoop noise i n s).reconstruction_matrix
        = s.reconstruction_matrix
    ∧ (runLoop env wfLoop noise i n s).image_ref = s.image_ref :=
  ⟨rfl, by norm_num [rcond], rfl, (runLoop_frame env wfLoop noise n i s).1,
    (runLoop_frame env wfLoop noise n i s).2⟩

/-- The trace of n loop iterations has exactly n states, whatever the
environment, the noise and the starting state. -/
theorem loopTrace_length {W : Type} {npix nact : ℕ} (env : AOEnv W npix nact)
    (wf : W) (noise : ℕ → Image npix → Image npix) :
    ∀ (n i : ℕ) (s : ScriptState npix nact),
      (loopTrace env wf noise i n s).length = n
  | 0, _, _ => rfl
  | n + 1, i, s => by
    show (loopTrace env wf noise (i + 1) n
        (loopStep env wf (noise i) s)).length + 1 = n + 1
    rw [loopTrace_length env wf noise n (i + 1) (loopStep env wf (noise i) s)]

/-- C5: each closed-loop cell runs exactly 10 iterations (for i in
range(10)), a count independent of the environment, the noise draws and the
state, with no break or data-dependent exit, so the script terminates. -/
theorem C5_fixed_ten_iterations {W : Type} {npix nact : ℕ}
    (env : AOEnv W npix nact) (wf : W)
    (noise1 noise2 : ℕ → Image npix → Image npix)
    (s1 s2 : ScriptState npix nact) :
    (loopTrace env wf noise1 0 10 s1).length = 10
    ∧ (loopTrace env wf noise2 10 10 s2).length = 10 :=
  ⟨loopTrace_length env wf noise1 10 0 s1,
    loopTrace_length env wf noise2 10 10 s2⟩

/-- C7: a closed-loop iteration reads only the re-assigned script variables:
two states agreeing on the actuator commands, the detector state, the
reconstruction matrix and the reference image produce identical successor
states, whatever their per-iteration image variables held before; and after
every iteration the detector is back in its empty state, so no object
carries hidden internal state into the next iteration. -/
theorem C7_no_hidden_state {W : Type} {npix nact : ℕ} (env : AOEnv W npix nact)
    (wf : W) (noise : Image npix → Image npix) (s1 s2 : ScriptState npix nact)
    (ha : s1.actuators = s2.actuators)
    (hc : s1.camera = s2.camera)
    (hm : s1.reconstruction_matrix = s2.reconstruction_matrix)
    (hr : s1.image_ref = s2.image_ref) :
    loopStep env wf noise s1 = loopStep env wf noise s2
    ∧ (loopStep env wf noise s1).camera = emptyCam := by
  obtain ⟨a1, c1, M1, r1, w1, d1⟩ := s1
  obtain ⟨a2, c2, M2, r2, w2, d2⟩ := s2
  cases ha
  cases hc
  cases hm
  cases hr
  exact ⟨rfl, rfl⟩

/-- A state agreeing with s0U on every re-assigned variable but holding
different per-iteration image variables. -/
def s0Uv : ScriptState 1 1 :=
  { s0U with wfs_image := fun _ => 5, diff_image := fun _ => 7 }

/-- Witness for C7 at the concrete one-pixel environment. -/
theorem C7_no_hidden_state_witness :
    loopStep envU () (fun img => img) s0U = loopStep envU () (fun img => img) s0Uv
    ∧ (loopStep envU () (fun img => img) s0U).camera = emptyCam :=
  C7_no_hidden_state envU () (fun img => img) s0U s0Uv rfl rfl rfl rfl

/-- Modelled from the spec: fallible versions of the library calls the loop
body makes, to state that the script installs no error handling around any
of them.  Each call may raise an exception of type e. -/
structure FallibleEnv (W : Type) (e : Type) (npix nact : ℕ) where
  dmForward : Actuators nact → W → Except e W
  pwfsForward : W → Except e W
  detPower : W → Except e (Image npix)
  poisson : Image npix → Except e (Image npix)

/-- The closed-loop iteration with fallible library calls, sequencing the
calls exactly as the script does, with no try/except, retry or recovery
branch around any of them. -/
def loopStepE {W e : Type} {npix nact : ℕ} (env : FallibleEnv W e npix nact)
    (wf : W) (s : ScriptState npix nact) : Except e (ScriptState npix nact) := do
  let wf_dm ← env.dmForward s.actuators wf
  let wf_pyr ← env.pwfsForward wf_dm
  let pw ← env.detPower wf_pyr
  let cam1 := s.camera.integrate pw 1
  let ro := cam1.read_out
  let raw ← env.poisson ro.1
  let wfs_image := normalize raw
  let diff_image := fun j => wfs_image j - s.image_ref j
  let snew : ScriptState npix nact :=
    { actuators := fun i =>
        (1 - leakage) * s.actuators i -
          gain * mdot s.reconstruction_matrix diff_image i
      camera := ro.2
      reconstruction_matrix := s.reconstruction_matrix
      image_ref := s.image_ref
      wfs_image := wfs_image
      diff_image := diff_image }
  pure snew

/-- C6: the script validates nothing and takes no recovery path: whichever
library call of the iteration fails first, its exception propagates out of
the iteration unchanged and no error branch runs. -/
theorem C6_no_error_handling {W e : Type} {npix nact : ℕ}
    (env : FallibleEnv W e npix nact) (wf : W) (s : ScriptState npix nact)
    (err : e) :
    (env.dmForward s.actuators wf = .error err →
      loopStepE env wf s = .error err)
    ∧ (∀ w1, env.dmForward s.actuators wf = .ok w1 →
        env.pwfsForward w1 = .error err → loopStepE env wf s = .error err)
    ∧ (∀ w1 w2, env.dmForward s.actuators wf = .ok w1 →
        env.pwfsForward w1 = .ok w2 →
        env.detPower w2 = .error err → loopStepE env wf s = .error err)
    ∧ (∀ w1 w2 pw, env.dmForward s.actuators wf = .ok w1 →
        env.pwfsForward w1 = .ok w2 → env.detPower w2 = .ok pw →
        env.poisson ((s.camera.integrate pw 1).read_out).1 = .error err →
        loopStepE env wf s = .error err) := by
  refine ⟨fun h1 => ?_, fun w1 h1 h2 => ?_, fun w1 w2 h1 h2 h3 => ?_,
    fun w1 w2 pw h1 h2 h3 h4 => ?_⟩
  · simp [loopStepE, h1, Bind.bind, Except.bind]
  · simp [loopStepE, h1, h2, Bind.bind, Except.bind]
  · simp [loopStepE, h1, h2, h3, Bind.bind, Except.bind]
  · simp [loopStepE, h1, h2, h3, h4, Bind.bind, Except.bind]

/-- A concrete fallible environment whose DM propagation fails. -/
def envE : FallibleEnv Unit Unit 1 1 where
  dmForward := fun _ _ => .error ()
  pwfsForward := fun w => .ok w
  detPower := fun _ => .ok fun _ => 1
  poisson := fun img => .ok img

/-- Witness for C6: the failing DM call makes the whole iteration fail. -/
theorem C6_no_error_handling_witness : loopStepE envE () s0U = .error () :=
  (C6_no_error_handling envE () s0U ()).1 rfl

/-- Scalar division as numpy performs it in the normalization lines: a zero
divisor produces no rational result (numpy emits NaN or inf together with an
invalid-value warning), modelled as none. -/
def npDiv (a b : ℚ) : Option ℚ := if b = 0 then none else some (a / b)

/-- The normalization wfs_image /= np.sum(wfs_image) (and likewise
image_ref /= image_ref.sum()) under the numpy division semantics: every
pixel is divided by the total image sum, with no zero guard. -/
def normalizeChecked {npix : ℕ} (img : Image npix) : Fin npix → Option ℚ :=
  fun j => npDiv (img j) (imageSum img)

/-- C9: the image normalizations have no zero guard: whenever the detector
read-out is the all-zero image (for instance because the wavefront deposits
no power on the detector), the divisor of the normalization is zero and
every pixel of the normalized image falls into the NaN branch. -/
theorem C9_division_by_zero_reachable {W : Type} {npix nact : ℕ}
    (env : AOEnv W npix nact) (wf : W) (s : ScriptState npix nact)
    (hc : s.camera = emptyCam)
    (hz : env.detPower (env.pwfsForward (env.dmForward s.actuators wf))
      = fun _ => 0) :
    rawReadOut env wf s = (fun _ => 0)
    ∧ imageSum (rawReadOut env wf s) = 0
    ∧ ∀ j, normalizeChecked (rawReadOut env wf s) j = none := by
  have h0 : rawReadOut env wf s = (fun _ => 0) := by
    obtain ⟨a, cam, M, ref, wi, di⟩ := s
    cases hc
    show ((emptyCam.integrate
        (env.detPower (env.pwfsForward (env.dmForward a wf))) 1).read_out).1
      = (fun _ => 0)
    rw [integrate_emptyCam_unit]
    exact hz
  have hs : imageSum (rawReadOut env wf s) = 0 := by
    rw [h0]
    simp [imageSum]
  exact ⟨h0, hs, fun j => by simp [normalizeChecked, npDiv, hs]⟩

/-- A concrete environment whose wavefronts deposit no power on the
detector. -/
def envZ : AOEnv Unit 1 1 where
  dmForward := fun _ w => w
  pwfsForward := fun w => w
  detPower := fun _ => fun _ => 0
  inverse_tikhonov := fun _ _ => fun _ _ => 1

/-- Witness for C9 at the zero-power environment. -/
theorem C9_division_by_zero_reachable_witness :
    rawReadOut envZ () s0U = (fun _ => 0)
    ∧ imageSum (rawReadOut envZ () s0U) = 0
    ∧ ∀ j, normalizeChecked (rawReadOut envZ () s0U) j = none :=
  C9_division_by_zero_reachable envZ () s0U rfl rfl

/-- The calibration cells bundled: the normalized reference image, the
interaction matrix and the reconstruction matrix.  None of these cells
calls the Poisson sampler. -/
def calibArtifacts {W : Type} {npix nact : ℕ} (env : AOEnv W npix nact)
    (wf : W) :
    Image npix × (Fin nact → Image npix) × (Fin nact → Fin npix → ℚ) :=
  let ref := image_ref_calc env wf
  (ref, interactionMatrix env wf ref, reconstructionMatrixCalc env wf ref)

/-- The whole script as a function of the Poisson noise stream: the
calibration artifacts together with the state after the ten-iteration
closed-loop cell. -/
def fullScript {W : Type} {npix nact : ℕ} (env : AOEnv W npix nact)
    (wfCalib wfLoop : W) (a0 : Actuators nact)
    (noise : ℕ → Image npix → Image npix) :
    (Image npix × (Fin nact → Image npix) × (Fin nact → Fin npix → ℚ))
      × ScriptState npix nact :=
  (calibArtifacts env wfCalib,
    runLoop env wfLoop noise 0 10 (initialState env wfCalib a0))

/-- A concrete two-pixel, one-actuator environment whose wavefronts deposit
a uniform unit power pattern on the detector. -/
def env2 : AOEnv Unit 2 1 where
  dmForward := fun _ w => w
  pwfsForward := fun w => w
  detPower := fun _ => fun _ => 1
  inverse_tikhonov := fun _ _ => fun _ _ => 1

/-- A concrete starting state on two pixels and one actuator: zero actuator
commands, empty detector, reconstruction row (1, 0) and uniform reference
image. -/
def s02 : ScriptState 2 1 where
  actuators := fun _ => 0
  camera := emptyCam
  reconstruction_matrix := fun _ j => if j = 0 then 1 else 0
  image_ref := fun _ => 1/2
  wfs_image := fun _ => 0
  diff_image := fun _ => 0

/-- A noise stream whose Poisson draws all return the mean image. -/
def noiseId : ℕ → Image 2 → Image 2 := fun _ img => img

/-- A noise stream whose Poisson draws return one extra photon in pixel 0
of every read-out. -/
def noiseBump : ℕ → Image 2 → Image 2 :=
  fun _ img => fun j => if j = 0 then img j + 1 else img j

/-- A ten-iteration trace starts with the state after the first iteration. -/
theorem loopTrace_ten {W : Type} {npix nact : ℕ} (env : AOEnv W npix nact)
    (wf : W) (noise : ℕ → Image npix → Image npix)
    (s : ScriptState npix nact) :
    loopTrace env wf noise 0 10 s
      = loopStep env wf (noise 0) s ::
          loopTrace env wf noise 1 9 (loopStep env wf (noise 0) s) := rfl

/-- Under the mean-returning draw, the first iteration from s02 leaves the
actuator commands at zero: the normalized image equals the reference. -/
theorem step_noiseId_actuators :
    (loopStep env2 () (noiseId 0) s02).actuators = fun _ => 0 := by
  funext i
  simp [loopStep, env2, s02, noiseId, normalize, imageSum, mdot,
    NoiselessDetector.integrate, NoiselessDetector.read_out, emptyCam,
    Fin.sum_univ_two, Fin.sum_univ_one]

/-- Under the bumped draw, the first iteration from s02 moves the actuator
command to -1/12. -/
theorem step_noiseBump_actuators :
    (loopStep env2 () (noiseBump 0) s02).actuators = fun _ => -(1/12) := by
  funext i
  simp [loopStep, env2, s02, noiseBump, normalize, imageSum, mdot,
    NoiselessDetector.integrate, NoiselessDetector.read_out, emptyCam,
    Fin.sum_univ_two, Fin.sum_univ_one, leakage, gain]
  norm_num

/-- C10: the calibration cells draw no random samples, so the calibration
artifacts are a function of the environment alone — runs with different
Poisson streams produce identical reference images, interaction matrices and
reconstruction matrices — while each closed-loop iteration draws Poisson
photon noise on the camera read-out, and two runs of the ten-iteration loop
from the same initial state can produce different actuator trajectories. -/
theorem C10_calibration_deterministic_loop_noisy :
    (∀ (W : Type) (npix nact : ℕ) (env : AOEnv W npix nact)
        (wfCalib wfLoop : W) (a0 : Actuators nact)
        (noise1 noise2 : ℕ → Image npix → Image npix),
        (fullScript env wfCalib wfLoop a0 noise1).1
          = (fullScript env wfCalib wfLoop a0 noise2).1)
    ∧ (∃ noise1 noise2 : ℕ → Image 2 → Image 2,
        loopTrace env2 () noise1 0 10 s02
          ≠ loopTrace env2 () noise2 0 10 s02) := by
  constructor
  · intro W npix nact env wfCalib wfLoop a0 noise1 noise2
    rfl
  · refine ⟨noiseId, noiseBump, fun h => ?_⟩
    rw [loopTrace_ten, loopTrace_ten] at h
    have hh : loopStep env2 () (noiseId 0) s02
        = loopStep env2 () (noiseBump 0) s02 := by
      have hhd := congrArg List.head? h
      simpa using hhd
    have ha := congrArg ScriptState.actuators hh
    rw [step_noiseId_actuators, step_noiseBump_actuators] at ha
    exact absurd (congrFun ha 0) (by norm_num)

end PyramidWFS
